import Mathlib

/- Verification development for jsonfix (src/jsonfix.py): a shallow embedding
   of the Fixer class over List Char, together with a JSON validity oracle
   modelled from the specification (the oracle is Python's stdlib json.loads,
   which is not part of this repository). -/

namespace Jsonfix

/-- Whitespace set from jsonfix.py line 20: space, tab, CR, LF. -/
def whitespace (c : Char) : Bool :=
  c == ' ' || c == '\t' || c == '\r' || c == '\n'

/-- split_at (jsonfix.py lines 23-31) with from_right = False: scans indices
    0,1,... and returns (l[:i], l[i:]) at the first i whose char satisfies p,
    or (l, empty) when none does. -/
def split_at_left (p : Char → Bool) : List Char → List Char × List Char
  | [] => ([], [])
  | c :: cs =>
    if p c then ([], c :: cs)
    else
      let r := split_at_left p cs
      (c :: r.1, r.2)

/-- split_at (jsonfix.py lines 23-31) with from_right = True: scans indices
    len-1,...,0 and returns (l[:i], l[i:]) at the first such i (i.e. the
    rightmost index) whose char satisfies p, or (l, empty) when none does.
    The second component is empty exactly when no char of the list satisfies
    p, which drives the recursion below. -/
def split_at_right (p : Char → Bool) : List Char → List Char × List Char
  | [] => ([], [])
  | c :: cs =>
    let r := split_at_right p cs
    if r.2.isEmpty then
      if p c then ([], c :: cs) else (c :: cs, [])
    else (c :: r.1, r.2)

/-- split_at from jsonfix.py lines 23-31, dispatching on from_right. -/
def split_at (p : Char → Bool) (l : List Char) (from_right : Bool) :
    List Char × List Char :=
  if from_right then split_at_right p l else split_at_left p l

/-- Fixer._trim (jsonfix.py lines 81-86). -/
def trim (string : List Char) : List Char × List Char × List Char :=
  let p1 := split_at (fun c => !(whitespace c)) string false
  let p2 := split_at (fun c => whitespace c) p1.2 true
  (p1.1, p2.1, p2.2)

/-- JSON whitespace accepted by a standard JSON parser between tokens. -/
def jsonWs (c : Char) : Bool :=
  c == ' ' || c == '\t' || c == '\n' || c == '\r'

/-- Drop leading JSON whitespace. -/
def skipJsonWs (s : List Char) : List Char := s.dropWhile jsonWs

/-- Hexadecimal digit test for string escapes. -/
def hexDigit (c : Char) : Bool :=
  c.isDigit || decide ('a' ≤ c ∧ c ≤ 'f') || decide ('A' ≤ c ∧ c ≤ 'F')

/-- Remainder of a JSON string after the opening quote: consumes characters
    up to and including the closing quote, accepting the standard escapes and
    rejecting raw control characters. Returns the rest of the input. -/
def parseStringRest : List Char → Option (List Char)
  | [] => none
  | '"' :: r => some r
  | '\\' :: 'u' :: a :: b :: c :: d :: r =>
    if hexDigit a && hexDigit b && hexDigit c && hexDigit d then parseStringRest r
    else none
  | '\\' :: e :: r =>
    if e = '"' ∨ e = '\\' ∨ e = '/' ∨ e = 'b' ∨ e = 'f' ∨ e = 'n' ∨ e = 'r' ∨ e = 't' then
      parseStringRest r
    else none
  | c :: r => if c.toNat < 32 then none else parseStringRest r

/-- Drop leading decimal digits. -/
def parseNumberTail (r : List Char) : List Char := r.dropWhile Char.isDigit

/-- Optional fraction part of a JSON number. -/
def parseFrac : List Char → Option (List Char)
  | '.' :: rest =>
    match rest with
    | d :: rest2 => if d.isDigit then some (parseNumberTail rest2) else none
    | [] => none
  | r => some r

/-- Optional exponent part of a JSON number. -/
def parseExp : List Char → Option (List Char)
  | [] => some []
  | c :: rest =>
    if c = 'e' ∨ c = 'E' then
      let rest2 :=
        match rest with
        | sgn :: r2 => if sgn = '+' ∨ sgn = '-' then r2 else sgn :: r2
        | [] => []
      match rest2 with
      | d :: r3 => if d.isDigit then some (parseNumberTail r3) else none
      | [] => none
    else some (c :: rest)

/-- JSON number: optional minus, integer part without leading zeros, optional
    fraction, optional exponent. Returns the rest of the input. -/
def parseNumber (s : List Char) : Option (List Char) :=
  let s1 := match s with | '-' :: r => r | _ => s
  let afterInt : Option (List Char) :=
    match s1 with
    | '0' :: r => some r
    | c :: r => if '1' ≤ c ∧ c ≤ '9' then some (parseNumberTail r) else none
    | [] => none
  match afterInt with
  | none => none
  | some r =>
    match parseFrac r with
    | none => none
    | some r2 => parseExp r2

mutual

/-- Modelled from the spec: one JSON value of the Validity Oracle grammar
    (spec sections 2 and 6; the oracle, Python's json.loads, is outside the
    repository and "any standard JSON parser's accept/reject outcome
    satisfies this"). Fuel-indexed recursive descent; returns the remaining
    input on success. -/
def parseVal : Nat → List Char → Option (List Char)
  | 0, _ => none
  | fuel + 1, s =>
    match s with
    | 't' :: 'r' :: 'u' :: 'e' :: r => some r
    | 'f' :: 'a' :: 'l' :: 's' :: 'e' :: r => some r
    | 'n' :: 'u' :: 'l' :: 'l' :: r => some r
    | '"' :: r => parseStringRest r
    | '{' :: r =>
      match skipJsonWs r with
      | '}' :: r2 => some r2
      | r2 => parseMembers fuel r2
    | '[' :: r =>
      match skipJsonWs r with
      | ']' :: r2 => some r2
      | r2 => parseElems fuel r2
    | c :: _ => if c = '-' ∨ c.isDigit then parseNumber s else none
    | [] => none

/-- Members of a JSON object, positioned at a key; consumes through the
    closing brace. -/
def parseMembers : Nat → List Char → Option (List Char)
  | 0, _ => none
  | fuel + 1, s =>
    match s with
    | '"' :: r =>
      match parseStringRest r with
      | none => none
      | some r2 =>
        match skipJsonWs r2 with
        | ':' :: r3 =>
          match parseVal fuel (skipJsonWs r3) with
          | none => none
          | some r4 =>
            match skipJsonWs r4 with
            | ',' :: r5 => parseMembers fuel (skipJsonWs r5)
            | '}' :: r5 => some r5
            | _ => none
        | _ => none
    | _ => none

/-- Elements of a JSON array, positioned at a value; consumes through the
    closing bracket. -/
def parseElems : Nat → List Char → Option (List Char)
  | 0, _ => none
  | fuel + 1, s =>
    match parseVal fuel s with
    | none => none
    | some r =>
      match skipJsonWs r with
      | ',' :: r2 => parseElems fuel (skipJsonWs r2)
      | ']' :: r2 => some r2
      | _ => none

end

/-- Modelled from the spec: the Validity Oracle isValidJson(text) -> bool
    (Fixer._is_valid_json wraps json.loads, which lives outside this
    repository). A document is valid when one JSON value surrounded only by
    whitespace consumes the whole input. -/
def is_valid_json (json_string : List Char) : Bool :=
  match parseVal (json_string.length + 1) (skipJsonWs json_string) with
  | some rem => rem.all jsonWs
  | none => false

/-- Fixer._complementary_pairs (jsonfix.py lines 40-44). -/
def complementary_pairs (c : Char) : Option Char :=
  if c = '{' then some '}'
  else if c = '[' then some ']'
  else if c = '"' then some '"'
  else none

/-- Fixer._maybe_literal (jsonfix.py lines 111-119): returns the full literal
    only when the input STARTS WITH that full literal (the code tests
    json_string.startswith(literal), not the converse). Callers never pass an
    empty string. -/
def maybe_literal (json_string : List Char) : Option (List Char) :=
  match json_string with
  | [] => none
  | c :: _ =>
    if c = 't' ∨ c = 'f' ∨ c = 'n' then
      if List.isPrefixOf ['t', 'r', 'u', 'e'] json_string then some ['t', 'r', 'u', 'e']
      else if List.isPrefixOf ['f', 'a', 'l', 's', 'e'] json_string then
        some ['f', 'a', 'l', 's', 'e']
      else if List.isPrefixOf ['n', 'u', 'l', 'l'] json_string then some ['n', 'u', 'l', 'l']
      else none
    else none

/-- Fixer._pad_string (jsonfix.py lines 252-258); string[-1] and string[-2:]
    on the nonempty argument the only caller passes. -/
def pad_string (string : List Char) : Option (List Char) :=
  match string.getLast? with
  | none => none
  | some last =>
    let last2 := string.drop (string.length - 2)
    if last2 = ['\\', '"'] ∨ last ≠ '"' then some (string ++ ['"'])
    else none

/-- Fixer._quick_fix (jsonfix.py lines 95-102); the caller guarantees a
    nonempty argument. -/
def quick_fix (json_string : List Char) : Option (List Char) :=
  match json_string with
  | [] => none
  | c :: rest =>
    match complementary_pairs c with
    | some pair =>
      if rest.isEmpty then some ((c :: rest) ++ [pair])
      else if c ≠ '"' then maybe_literal (c :: rest)
      else pad_string (c :: rest)
    | none =>
      if c ≠ '"' then maybe_literal (c :: rest)
      else pad_string (c :: rest)

/-- Scan state of a Fixer instance (jsonfix.py lines 33-53): the ordered
    token stack of (position, token) pairs, the in-string flag, and the two
    position sentinels (-1 = none). -/
structure FixerState where
  token_stack : List (Nat × Char)
  is_in_string : Bool
  last_object_position : Int
  last_array_position : Int
  deriving DecidableEq

/-- The field values installed by Fixer._reset (jsonfix.py lines 104-108),
    which coincide with the class-attribute defaults. -/
def reset_state : FixerState :=
  { token_stack := [], is_in_string := false,
    last_object_position := -1, last_array_position := -1 }

/-- Fixer._last_token (jsonfix.py lines 135-140): token of the most recently
    inserted stack entry. -/
def last_token (st : FixerState) : Option Char :=
  st.token_stack.getLast?.map Prod.snd

/-- Helper for Fixer._pop_token with an argument: remove the first entry,
    scanning from the given end, whose token equals the argument. -/
def remove_first_match (token : Char) : List (Nat × Char) → List (Nat × Char)
  | [] => []
  | e :: es => if e.2 = token then es else e :: remove_first_match token es

/-- Fixer._pop_token(token) (jsonfix.py lines 142-152): scan the stack from
    the tail for the first entry of the given token type and delete it. -/
def pop_token_of_type (token : Char) (stack : List (Nat × Char)) : List (Nat × Char) :=
  (remove_first_match token stack.reverse).reverse

/-- Fixer._maybe_string (jsonfix.py lines 154-160). prev is none at index 0
    (Python uses the empty string there). -/
def maybe_string (st : FixerState) (prev : Option Char) (char : Char) (i : Nat) :
    FixerState × Bool :=
  let st :=
    if prev ≠ some '\\' ∧ char = '"' then
      { st with is_in_string := !st.is_in_string }
    else st
  let st :=
    if st.is_in_string ∧ last_token st ≠ some '"' then
      { st with token_stack := st.token_stack ++ [(i, '"')] }
    else st
  (st, st.is_in_string)

/-- Fixer._update_position (jsonfix.py lines 162-172). -/
def update_position (st : FixerState) (char : Char) (i : Nat) : FixerState :=
  if char = '{' then { st with last_object_position := (i : Int) }
  else if char = '}' then
    { st with token_stack := pop_token_of_type '{' st.token_stack,
              last_object_position := -1 }
  else if char = '[' then { st with last_array_position := (i : Int) }
  else if char = ']' then
    { st with token_stack := pop_token_of_type '[' st.token_stack,
              last_array_position := -1 }
  else st

/-- Fixer._stack (jsonfix.py lines 121-133); the nxt parameter is received
    but unused, exactly as in the source. -/
def stack_step (st : FixerState) (prev : Option Char) (char : Char) (i : Nat)
    (nxt : Option Char) : FixerState :=
  let ms := maybe_string st prev char i
  if ms.2 then ms.1
  else
    let st := ms.1
    let st :=
      match last_token st with
      | some last =>
        if (last = ',' ∨ last = ':' ∨ last = '"') ∧
            (char = '"' ∨ char.isDigit ∨ char = '{' ∨ char = '[' ∨
              char = 't' ∨ char = 'f' ∨ char = 'n') then
          { st with token_stack := st.token_stack.dropLast }
        else st
      | none => st
    let st :=
      if char = ',' ∨ char = ':' ∨ char = '[' ∨ char = '{' then
        { st with token_stack := st.token_stack ++ [(i, char)] }
      else st
    update_position st char i

/-- The character loop of Fixer.fix (jsonfix.py lines 69-77): whitespace
    characters trigger no stack mutation; prev is the previous raw character. -/
def scan_from (st : FixerState) (prev : Option Char) (i : Nat) : List Char → FixerState
  | [] => st
  | c :: rest =>
    let st' := if whitespace c then st else stack_step st prev c i rest.head?
    scan_from st' (some c) (i + 1) rest

/-- Fixer._reset followed by the scan loop of Fixer.fix. -/
def scan (body : List Char) : FixerState :=
  scan_from reset_state none 0 body

/-- The two ways a call to Fixer.fix can raise: the declared RuntimeError
    carrying the attempted padding suffix (jsonfix.py line 181), and the
    IndexError from tmp_json[-1] on an empty string in
    Fixer._object_needs_padding (jsonfix.py line 248). -/
inductive FixError where
  | couldNotFix (padding : List Char)
  | indexError
  deriving DecidableEq

/-- Python str.rstrip(",") as used in Fixer._pad: remove all trailing commas. -/
def rstrip_comma (s : List Char) : List Char :=
  (s.reverse.dropWhile (fun c => c == ',')).reverse

/-- The while loop of Fixer._pad (jsonfix.py lines 186-187): pop stack
    entries from the tail while the last token is a comma. -/
def pop_trailing_commas (stack : List (Nat × Char)) : List (Nat × Char) :=
  (stack.reverse.dropWhile (fun e => e.2 == ',')).reverse

/-- Greedy single-optional-character matcher: r? in a regex whose optional
    characters never require backtracking (each optional is followed by
    distinct mandatory continuations in the patterns below). -/
def opt (c : Char) (s : List Char) : List Char :=
  match s with
  | x :: xs => if x = c then xs else x :: xs
  | [] => []

/-- re.match of the anchored pattern (tr?u?e?|fa?l?s?e|nu?l?l?)$ from
    Fixer._pad_literal (jsonfix.py line 198): the whole input must be one
    alternative; group 1 is then the whole input. -/
def match_literal_regex (s : List Char) : Bool :=
  match s with
  | 't' :: rest => (opt 'e' (opt 'u' (opt 'r' rest))).isEmpty
  | 'f' :: rest =>
    match opt 's' (opt 'l' (opt 'a' rest)) with
    | 'e' :: r => r.isEmpty
    | _ => false
  | 'n' :: rest => (opt 'l' (opt 'l' (opt 'u' rest))).isEmpty
  | _ => false

/-- Fixer._pad_literal (jsonfix.py lines 194-209). The slice
    tmp_json[:0-len(g1)] is tmp_json[:len(tmp_json)-len(g1)] since g1 is
    nonempty. -/
def pad_literal (st : FixerState) (tmp_json : List Char) : List Char :=
  if st.is_in_string then tmp_json
  else if match_literal_regex tmp_json then
    let g1 := tmp_json
    match maybe_literal g1 with
    | some literal => tmp_json.take (tmp_json.length - g1.length) ++ literal
    | none => tmp_json
  else tmp_json

/-- Python regex \s on these inputs: the module whitespace set plus vertical
    tab and form feed (wider Unicode space classes never occur here). -/
def regex_space (c : Char) : Bool :=
  whitespace c || c == '\x0b' || c == '\x0c'

/-- re.match of the anchored pattern (\s*\"[^"]+\"\s*:\s*[^,]+,?)+$ from
    Fixer._pad_object (jsonfix.py line 231): the whole input must be one or
    more key:value units. The \s* before a quote and before the colon are
    forced maximal (whitespace is neither quote nor colon); \s*[^,]+ is,
    as a language, [^,]+ (whitespace is itself a non-comma character); the
    only true nondeterminism is where [^,]+ stops, searched below over every
    nonempty prefix of the maximal comma-free run; skipping the optional
    comma while one is present would make the next unit start with a comma,
    which cannot match, so the comma is consumed when present. -/
def kv_units : Nat → List Char → Bool
  | 0, _ => false
  | fuel + 1, s =>
    match s.dropWhile regex_space with
    | '"' :: r1 =>
      let key := r1.takeWhile (fun c => c != '"')
      if key.isEmpty then false
      else
        match r1.drop key.length with
        | '"' :: r2 =>
          match r2.dropWhile regex_space with
          | ':' :: r4 =>
            let chunk := r4.takeWhile (fun c => c != ',')
            (List.range chunk.length).any (fun j =>
              match r4.drop (j + 1) with
              | [] => true
              | ',' :: rest2 => rest2.isEmpty || kv_units fuel rest2
              | rest => kv_units fuel rest)
          | _ => false
        | _ => false
    | _ => false

/-- Fixer._object_needs_padding (jsonfix.py lines 247-250); tmp_json[-1]
    raises IndexError on an empty string. -/
def object_needs_padding (st : FixerState) (tmp_json : List Char) : Except FixError Bool :=
  match tmp_json.getLast? with
  | none => Except.error FixError.indexError
  | some last =>
    let is_empty := (last == '{') && !st.is_in_string
    Except.ok (!is_empty && decide (st.last_array_position < st.last_object_position))

/-- Fixer._missing_value (jsonfix.py line 53). -/
def missing_value : List Char := ['n', 'u', 'l', 'l']

/-- Fixer._pad_object (jsonfix.py lines 222-245). -/
def pad_object (st : FixerState) (tmp_json : List Char) :
    Except FixError (FixerState × List Char) :=
  match object_needs_padding st tmp_json with
  | Except.error e => Except.error e
  | Except.ok false => Except.ok (st, tmp_json)
  | Except.ok true =>
    let part := tmp_json.drop (st.last_object_position + 1).toNat
    if kv_units (part.length + 1) part then Except.ok (st, tmp_json)
    else
      let tmp1 := if st.is_in_string then tmp_json ++ ['"'] else tmp_json
      let tmp2 := if tmp1.getLast? ≠ some ':' then tmp1 ++ [':'] else tmp1
      let tmp3 := tmp2 ++ missing_value
      let st' :=
        if last_token st = some '"' then
          { st with token_stack := st.token_stack.dropLast }
        else st
      Except.ok (st', tmp3)

/-- Loop body of Fixer._pad_stack (jsonfix.py lines 216-219). -/
def pad_stack_step (acc : List Char) (e : Nat × Char) : List Char :=
  match complementary_pairs e.2 with
  | some pair => acc ++ [pair]
  | none => acc

/-- Fixer._pad_stack (jsonfix.py lines 211-220): walk the stack from the
    most recently pushed entry and append each complementary closer. -/
def pad_stack (st : FixerState) (tmp_json : List Char) : List Char :=
  st.token_stack.reverse.foldl pad_stack_step tmp_json

/-- The comma-strip at the top of Fixer._pad (jsonfix.py lines 184-187):
    outside a string, rstrip the commas from the text and pop trailing comma
    entries from the stack. -/
def strip_step (st : FixerState) (tmp_json : List Char) : FixerState × List Char :=
  if !st.is_in_string then
    ({ st with token_stack := pop_trailing_commas st.token_stack },
      rstrip_comma tmp_json)
  else (st, tmp_json)

/-- Fixer._pad (jsonfix.py lines 183-192). -/
def pad (st : FixerState) (tmp_json : List Char) :
    FixerState × Except FixError (List Char) :=
  let stripped := strip_step st tmp_json
  let tmp2 := pad_literal stripped.1 stripped.2
  match pad_object stripped.1 tmp2 with
  | Except.error e => (stripped.1, Except.error e)
  | Except.ok (st2, tmp3) => (st2, Except.ok (pad_stack st2 tmp3))

/-- Fixer._fix_or_fail (jsonfix.py lines 174-181). -/
def fix_or_fail (st : FixerState) (json_string : List Char) :
    FixerState × Except FixError (List Char) :=
  let l := json_string.length
  match pad st json_string with
  | (st1, Except.error e) => (st1, Except.error e)
  | (st1, Except.ok tmp) =>
    if is_valid_json tmp then (st1, Except.ok tmp)
    else (st1, Except.error (FixError.couldNotFix (tmp.drop l)))

/-- Fixer.fix (jsonfix.py lines 57-79) on an instance whose fields hold st:
    the already-valid and quick-fix paths return before touching the scan
    state; the full path resets the state first (Fixer._reset) and threads
    it through the scan and the padder. Returns the state the instance is
    left with together with the outcome. -/
def fixFrom (st : FixerState) (json_string : List Char) :
    FixerState × Except FixError (List Char) :=
  let t := trim json_string
  let head := t.1
  let body := t.2.1
  let tail := t.2.2
  if body.length = 0 ∨ is_valid_json body = true then (st, Except.ok body)
  else
    match quick_fix body with
    | some q => (st, Except.ok q)
    | none =>
      let st1 := scan body
      match fix_or_fail st1 body with
      | (st2, Except.ok fixed) => (st2, Except.ok (head ++ fixed ++ tail))
      | (st2, Except.error e) => (st2, Except.error e)

/-- Fixer.fix on a fresh instance. -/
def fix (json_string : List Char) : Except FixError (List Char) :=
  (fixFrom reset_state json_string).2

end Jsonfix

namespace Jsonfix

/-- The trailing commas removed by rstrip are recovered as a suffix: every
    list is its comma-stripped form followed by the stripped commas. -/
theorem rstrip_comma_append_tail (l : List Char) :
    ∃ cs, l = rstrip_comma l ++ cs := by
  refine ⟨(l.reverse.takeWhile (fun c => c == ',')).reverse, ?_⟩
  unfold rstrip_comma
  rw [← List.reverse_append, List.takeWhile_append_dropWhile, List.reverse_reverse]

/-- A string matching the literal-prefix regex that extends "true" must be
    exactly "true". -/
theorem regex_true_tail (rest : List Char)
    (h : match_literal_regex (['t', 'r', 'u', 'e'] ++ rest) = true) : rest = [] := by
  simp only [List.cons_append, List.nil_append, match_literal_regex, opt] at h
  simp only [reduceIte] at h
  exact List.isEmpty_iff.mp h

/-- A string matching the literal-prefix regex that extends "false" must be
    exactly "false". -/
theorem regex_false_tail (rest : List Char)
    (h : match_literal_regex (['f', 'a', 'l', 's', 'e'] ++ rest) = true) : rest = [] := by
  simp only [List.cons_append, List.nil_append, match_literal_regex, opt] at h
  simp only [reduceIte] at h
  exact List.isEmpty_iff.mp h

/-- A string matching the literal-prefix regex that extends "null" must be
    exactly "null". -/
theorem regex_null_tail (rest : List Char)
    (h : match_literal_regex (['n', 'u', 'l', 'l'] ++ rest) = true) : rest = [] := by
  simp only [List.cons_append, List.nil_append, match_literal_regex, opt] at h
  simp only [reduceIte] at h
  exact List.isEmpty_iff.mp h

/-- What maybe_literal returning a literal means: the result is one of the
    three full literals and is a prefix of the argument. -/
theorem maybe_literal_cases (l lit : List Char) (hml : maybe_literal l = some lit) :
    (lit = ['t', 'r', 'u', 'e'] ∨ lit = ['f', 'a', 'l', 's', 'e'] ∨
      lit = ['n', 'u', 'l', 'l']) ∧ List.isPrefixOf lit l = true := by
  cases l with
  | nil => simp [maybe_literal] at hml
  | cons c cs =>
    simp only [maybe_literal] at hml
    split at hml
    · split at hml
      · cases hml
        exact ⟨Or.inl rfl, by assumption⟩
      · split at hml
        · cases hml
          exact ⟨Or.inr (Or.inl rfl), by assumption⟩
        · split at hml
          · cases hml
            exact ⟨Or.inr (Or.inr rfl), by assumption⟩
          · cases hml
    · cases hml

/-- Fixer._pad_literal is the identity on every input: the regex group is
    the whole string, maybe_literal only answers when the full literal is
    already present, and the slice-and-replace then reproduces the input.
    (This is the mechanism behind the C4 code bug: truncated literals are
    never completed.) -/
theorem pad_literal_eq_id (st : FixerState) (l : List Char) : pad_literal st l = l := by
  unfold pad_literal
  by_cases hs : st.is_in_string = true
  · rw [if_pos hs]
  · rw [if_neg hs]
    by_cases hm : match_literal_regex l = true
    · rw [if_pos hm]
      cases hml : maybe_literal l with
      | none => simp only [hml]
      | some lit =>
        obtain ⟨hlit, hpre⟩ := maybe_literal_cases l lit hml
        obtain ⟨rest, hrest⟩ := List.isPrefixOf_iff_prefix.mp hpre
        have hrnil : rest = [] := by
          rcases hlit with h3 | h3 | h3 <;> subst h3
          · exact regex_true_tail rest (by rw [hrest]; exact hm)
          · exact regex_false_tail rest (by rw [hrest]; exact hm)
          · exact regex_null_tail rest (by rw [hrest]; exact hm)
        have hl : l = lit := by rw [← hrest, hrnil, List.append_nil]
        simp only [hml]
        simp [hl]
    · rw [if_neg hm]

/-- When pad_object succeeds it only ever appends to the body: the returned
    text extends its argument. -/
theorem pad_object_ok_append (st st2 : FixerState) (l l2 : List Char)
    (h : pad_object st l = Except.ok (st2, l2)) : ∃ suf, l2 = l ++ suf := by
  unfold pad_object at h
  cases honp : object_needs_padding st l with
  | error e => rw [honp] at h; simp at h
  | ok bv =>
    rw [honp] at h
    cases bv with
    | false =>
      simp only [Except.ok.injEq, Prod.mk.injEq] at h
      exact ⟨[], by simp [← h.2]⟩
    | true =>
      dsimp only at h
      set part := l.drop (st.last_object_position + 1).toNat with hpart
      by_cases hkv : kv_units (part.length + 1) part = true
      · rw [if_pos hkv] at h
        simp only [Except.ok.injEq, Prod.mk.injEq] at h
        exact ⟨[], by simp [← h.2]⟩
      · rw [if_neg hkv] at h
        simp only [Except.ok.injEq, Prod.mk.injEq] at h
        obtain ⟨-, hl2⟩ := h
        by_cases h1 : st.is_in_string = true
        · rw [if_pos h1] at hl2
          by_cases h2 : (l ++ ['"']).getLast? ≠ some ':'
          · rw [if_pos h2] at hl2
            exact ⟨['"'] ++ [':'] ++ missing_value, by simp [← hl2]⟩
          · rw [if_neg h2] at hl2
            exact ⟨['"'] ++ missing_value, by simp [← hl2]⟩
        · rw [if_neg h1] at hl2
          by_cases h2 : l.getLast? ≠ some ':'
          · rw [if_pos h2] at hl2
            exact ⟨[':'] ++ missing_value, by simp [← hl2]⟩
          · rw [if_neg h2] at hl2
            exact ⟨missing_value, by simp [← hl2]⟩

/-- The fold of pad_stack only appends closers to its accumulator. -/
theorem foldl_pad_stack_append (entries : List (Nat × Char)) (acc : List Char) :
    ∃ suf, entries.foldl pad_stack_step acc = acc ++ suf := by
  induction entries generalizing acc with
  | nil => exact ⟨[], by simp⟩
  | cons e es ih =>
    obtain ⟨suf, hsuf⟩ := ih (pad_stack_step acc e)
    rw [List.foldl_cons, hsuf]
    unfold pad_stack_step
    cases hc : complementary_pairs e.2 with
    | none => exact ⟨suf, rfl⟩
    | some p => exact ⟨[p] ++ suf, by simp⟩

/-- pad_stack only appends to the body. -/
theorem pad_stack_append (st : FixerState) (l : List Char) :
    ∃ suf, pad_stack st l = l ++ suf := by
  unfold pad_stack
  exact foldl_pad_stack_append st.token_stack.reverse l

/-- The text left by the comma-strip is the comma-stripped body possibly
    followed by its stripped commas (nothing else is removed). -/
theorem strip_step_snd_append (st : FixerState) (b : List Char) :
    ∃ cs, (strip_step st b).2 = rstrip_comma b ++ cs := by
  unfold strip_step
  split
  · exact ⟨[], by simp⟩
  · exact rstrip_comma_append_tail b

/-- When Fixer._pad succeeds, its output is the comma-stripped body followed
    only by appended material. -/
theorem pad_ok_append (st st2 : FixerState) (b tmp : List Char)
    (h : pad st b = (st2, Except.ok tmp)) :
    ∃ suf, tmp = rstrip_comma b ++ suf := by
  simp only [pad] at h
  rw [pad_literal_eq_id] at h
  rcases hpo : pad_object (strip_step st b).1 (strip_step st b).2 with e | ⟨st3, tmp3⟩
  · rw [hpo] at h; simp at h
  · rw [hpo] at h
    simp only [Prod.mk.injEq, Except.ok.injEq] at h
    obtain ⟨suf1, hsuf1⟩ := pad_object_ok_append _ _ _ _ hpo
    obtain ⟨suf2, hsuf2⟩ := pad_stack_append st3 tmp3
    obtain ⟨cs, hcs⟩ := strip_step_snd_append st b
    refine ⟨cs ++ suf1 ++ suf2, ?_⟩
    rw [← h.2, hsuf2, hsuf1, hcs]
    simp

/-- When Fixer._fix_or_fail returns a result, that result came from the
    padder and passed the Validity Oracle. -/
theorem fix_or_fail_snd_ok (st : FixerState) (b tmp : List Char)
    (h : (fix_or_fail st b).2 = Except.ok tmp) :
    (pad st b).2 = Except.ok tmp ∧ is_valid_json tmp = true := by
  unfold fix_or_fail at h
  rcases hp : pad st b with ⟨st1, res⟩
  rw [hp] at h
  cases res with
  | error e => cases h
  | ok tmpv =>
    dsimp only at h
    by_cases hv : is_valid_json tmpv = true
    · rw [if_pos hv] at h
      dsimp only at h
      cases h
      exact ⟨rfl, hv⟩
    · rw [if_neg hv] at h
      cases h

/-- On the full scan-and-pad branch (nonempty, invalid body that the quick
    fixer declines), fix returns exactly the reattached fix_or_fail result. -/
theorem fixFrom_full_branch (st : FixerState) (s hd bd tl : List Char)
    (htrim : trim s = (hd, bd, tl))
    (hne : ¬(bd.length = 0 ∨ is_valid_json bd = true))
    (hq : quick_fix bd = none) :
    fixFrom st s =
      (match fix_or_fail (scan bd) bd with
        | (st2, Except.ok fixed) => (st2, Except.ok (hd ++ fixed ++ tl))
        | (st2, Except.error e) => (st2, Except.error e)) := by
  unfold fixFrom
  rw [htrim]
  dsimp only
  rw [if_neg hne, hq]

end Jsonfix

namespace Jsonfix

/-- C1: the claim fails as stated. fix applied to the four characters
    quote-a-quote-x succeeds on the quick-fix string path with a result that
    is not valid JSON (no Validity Oracle gate runs on that path), and fix on
    an already-whitespace-containing valid object succeeds on the full path
    yet returns invalid text because the mis-trimmed trailing part is
    reattached after the oracle check. -/
theorem c1_success_not_always_valid :
    (fix ['"', 'a', '"', 'x'] = Except.ok ['"', 'a', '"', 'x', '"'] ∧
      is_valid_json ['"', 'a', '"', 'x', '"'] = false) ∧
    (fix ['{', '"', 'a', '"', ':', ' ', '1', '}'] =
        Except.ok ['{', '"', 'a', '"', ':', 'n', 'u', 'l', 'l', '}', ' ', '1', '}'] ∧
      is_valid_json ['{', '"', 'a', '"', ':', 'n', 'u', 'l', 'l', '}', ' ', '1', '}'] = false) :=
  ⟨⟨rfl, by decide⟩, ⟨rfl, by decide⟩⟩

/-- C1 (amended): on the full scan-and-pad path (nonempty body that is not
    valid JSON and that the quick fixer declines), every successful result of
    fix is the leading part, a padded body that passed the Validity Oracle,
    and the trailing part. -/
theorem c1_full_path_validity (s hd bd tl r : List Char)
    (htrim : trim s = (hd, bd, tl))
    (hne : ¬(bd.length = 0 ∨ is_valid_json bd = true))
    (hq : quick_fix bd = none)
    (hfix : fix s = Except.ok r) :
    ∃ m, r = hd ++ m ++ tl ∧ is_valid_json m = true := by
  unfold fix at hfix
  rw [fixFrom_full_branch reset_state s hd bd tl htrim hne hq] at hfix
  rcases hfo : fix_or_fail (scan bd) bd with ⟨st2, res⟩
  rw [hfo] at hfix
  cases res with
  | error e => simp at hfix
  | ok fixed =>
    dsimp only at hfix
    cases hfix
    obtain ⟨-, hv⟩ := fix_or_fail_snd_ok (scan bd) bd fixed (by rw [hfo])
    exact ⟨fixed, rfl, hv⟩

/-- C1 witness: for the input open-bracket-1-comma the full path applies and
    the theorem yields the valid middle part. -/
theorem c1_full_path_validity_witness :
    ∃ m, ['[', '1', ']'] = ([] : List Char) ++ m ++ ([] : List Char) ∧
      is_valid_json m = true :=
  c1_full_path_validity ['[', '1', ','] [] ['[', '1', ','] [] ['[', '1', ']']
    (by decide) (by decide) (by decide) rfl

/-- C2: the trimmer splits the remainder at the rightmost whitespace
    character, not at the start of a maximal whitespace suffix: on the input
    1-space-2 the returned trailing part is space-2, which is not made of
    whitespace (the claim requires an empty trailing part here). -/
theorem c2_trim_not_maximal_suffix :
    trim ['1', ' ', '2'] = ([], ['1'], [' ', '2']) ∧
      ([' ', '2'].all (fun c => whitespace c)) = false := by
  decide

/-- C3: fix does not return already-valid input unchanged. The valid input
    space-1-space comes back as the bare body with both whitespace characters
    dropped, and the valid input quote-a-space-b-quote is mangled by the
    trimmer and returned as quote-a-quote. -/
theorem c3_valid_input_not_preserved :
    fix [' ', '1', ' '] = Except.ok ['1'] ∧
      fix ['"', 'a', ' ', 'b', '"'] = Except.ok ['"', 'a', '"'] :=
  ⟨rfl, rfl⟩

/-- C4: fix applied to t-r-u does not return true; it raises the could-not-fix
    error with an empty attempted padding, because maybe_literal tests
    whether the input starts with the full literal and so never completes a
    proper prefix. -/
theorem c4_truncated_literal_not_completed :
    fix ['t', 'r', 'u'] = Except.error (FixError.couldNotFix []) :=
  rfl

/-- C5: fix applied to a single comma raises the out-of-range string index
    error (tmp_json[-1] in _object_needs_padding after the comma strip leaves
    the body empty), not the declared could-not-fix error. -/
theorem c5_comma_raises_index_error :
    fix [','] = Except.error FixError.indexError :=
  rfl

/-- C6: the leading and trailing whitespace are not reattached on the
    already-valid return path: fix on space-tab-1-newline returns the single
    character 1, which does not begin with the leading whitespace. -/
theorem c6_whitespace_not_reattached :
    fix [' ', '\t', '1', '\n'] = Except.ok ['1'] ∧
      List.isPrefixOf [' ', '\t'] ['1'] = false :=
  ⟨rfl, by decide⟩

/-- C7: fix completes a dangling object key to key-colon-null-brace; with the
    colon already present it is not duplicated, and with the colon missing it
    is inserted before the placeholder. -/
theorem c7_object_value_completed :
    fix ['{', '"', 'a', '"', ':'] =
        Except.ok ['{', '"', 'a', '"', ':', 'n', 'u', 'l', 'l', '}'] ∧
      fix ['{', '"', 'a', '"'] =
        Except.ok ['{', '"', 'a', '"', ':', 'n', 'u', 'l', 'l', '}'] :=
  ⟨rfl, rfl⟩

/-- C8: the claim fails as stated. On the input with two leading and two
    trailing spaces the rightmost-whitespace trim leaves one space inside the
    body after the comma, rstrip(",") then strips nothing, the padded text
    keeps the trailing comma, the Validity Oracle rejects it, and fix raises
    the could-not-fix error carrying the attempted closers. -/
theorem c8_trailing_ws_comma_error :
    fix [' ', ' ', '{', '"', 'x', '"', ':', '[', '1', ',', '2', ',', ' ', ' '] =
      Except.error (FixError.couldNotFix [']', '}']) :=
  rfl

/-- C8 (amended): without whitespace after the trailing comma, the comma
    strip, the comma stack pop and the closers produce the claimed output
    with the leading whitespace kept. -/
theorem c8_comma_strip_amended :
    fix [' ', ' ', '{', '"', 'x', '"', ':', '[', '1', ',', '2', ','] =
      Except.ok [' ', ' ', '{', '"', 'x', '"', ':', '[', '1', ',', '2', ']', '}'] :=
  rfl

/-- C9: the claim fails as stated. On the quick-fix literal path, a body that
    starts with a full literal and continues with further characters is
    replaced by the bare literal: fix on t-r-u-e-x returns true, deleting the
    x (the input body is not even a prefix of the output). -/
theorem c9_quick_literal_deletes :
    fix ['t', 'r', 'u', 'e', 'x'] = Except.ok ['t', 'r', 'u', 'e'] ∧
      List.isPrefixOf ['t', 'r', 'u', 'e', 'x'] ['t', 'r', 'u', 'e'] = false :=
  ⟨rfl, by decide⟩

/-- C9 (amended): on the full scan-and-pad path, a successful result is the
    leading part, the body with (at most) its trailing commas stripped
    followed only by appended material, and the trailing part; no other
    character of the body is removed there. -/
theorem c9_full_path_append_only (s hd bd tl r : List Char)
    (htrim : trim s = (hd, bd, tl))
    (hne : ¬(bd.length = 0 ∨ is_valid_json bd = true))
    (hq : quick_fix bd = none)
    (hfix : fix s = Except.ok r) :
    ∃ suf, r = hd ++ (rstrip_comma bd ++ suf) ++ tl := by
  unfold fix at hfix
  rw [fixFrom_full_branch reset_state s hd bd tl htrim hne hq] at hfix
  rcases hfo : fix_or_fail (scan bd) bd with ⟨st2, res⟩
  rw [hfo] at hfix
  cases res with
  | error e => simp at hfix
  | ok fixed =>
    dsimp only at hfix
    cases hfix
    obtain ⟨hpad, -⟩ := fix_or_fail_snd_ok (scan bd) bd fixed (by rw [hfo])
    rcases hpd : pad (scan bd) bd with ⟨stp, pres⟩
    rw [hpd] at hpad
    cases pres with
    | error e => cases hpad
    | ok pfixed =>
      cases hpad
      obtain ⟨suf, hsuf⟩ := pad_ok_append (scan bd) stp bd fixed hpd
      exact ⟨suf, by rw [hsuf]⟩

/-- C9 witness: for the input open-bracket-1-comma the full path applies; the
    output is the comma-stripped body plus only the appended closer. -/
theorem c9_full_path_append_only_witness :
    ∃ suf, ['[', '1', ']'] =
      ([] : List Char) ++ (rstrip_comma ['[', '1', ','] ++ suf) ++ ([] : List Char) :=
  c9_full_path_append_only ['[', '1', ','] [] ['[', '1', ','] [] ['[', '1', ']']
    (by decide) (by decide) (by decide) rfl

/-- C10: the outcome of fix never depends on the scan state the Fixer
    instance starts with: the already-valid and quick-fix paths do not read
    it, and the full path resets it before scanning, so two calls on the same
    input agree whatever earlier calls (including failed ones) left behind. -/
theorem c10_result_state_independent (st1 st2 : FixerState) (s : List Char) :
    (fixFrom st1 s).2 = (fixFrom st2 s).2 := by
  unfold fixFrom
  rcases htrim : trim s with ⟨hd, bd, tl⟩
  dsimp only
  by_cases hc : bd.length = 0 ∨ is_valid_json bd = true
  · rw [if_pos hc, if_pos hc]
  · rw [if_neg hc, if_neg hc]
    cases hq : quick_fix bd with
    | some q => rfl
    | none => rfl

end Jsonfix
